import Mathlib

/-!
Shallow embedding of `src/learners/experts.py` (OnlineBrokerage).

Prices, valuations, budgets and losses are rationals (Python floats are
rationals); learner weights and the learning rate live in `ℝ` because the
source uses `exp` and `sqrt`.  Randomness (`np.random.choice`) is
de-randomised: each round's chosen expert index and the environment's
answers are explicit inputs of the step functions.
-/

/-- Numpy boolean indicator `hidden_s <= experts[:,0]`, as the 0/1 rational
the source multiplies with. -/
def ind_s (hidden_s : ℚ) (e : ℚ × ℚ) : ℚ := if hidden_s ≤ e.1 then 1 else 0

/-- Numpy boolean indicator `experts[:,1] <= hidden_b`. -/
def ind_b (hidden_b : ℚ) (e : ℚ × ℚ) : ℚ := if e.2 ≤ hidden_b then 1 else 0

/-- State of the `Hedge` learner (`Hedge.__init__`). -/
@[ext] structure Hedge where
  experts : List (ℚ × ℚ)
  T : ℕ
  epsilon : ℝ
  weights : List ℝ
  gft : List ℚ

/-- `Hedge.__init__(experts, T)`: uniform weights `1/N`, learning rate
`sqrt(log N / T)`, zero per-expert gft accumulators.  The source performs
no validation whatsoever on `experts` or `T`. -/
noncomputable def Hedge.init (experts : List (ℚ × ℚ)) (T : ℕ) : Hedge :=
  { experts := experts
    T := T
    epsilon := Real.sqrt (Real.log (experts.length : ℝ) / (T : ℝ))
    weights := List.replicate experts.length ((experts.length : ℝ))⁻¹
    gft := List.replicate experts.length 0 }

/-- `Hedge.update_weights(hidden_s, hidden_b)`. -/
noncomputable def Hedge.update_weights (h : Hedge) (hidden_s hidden_b : ℚ) : Hedge :=
  let gft_diff := hidden_b - hidden_s
  let gfts := h.experts.map fun e => ind_s hidden_s e * ind_b hidden_b e * gft_diff
  let gft_losses :=
    if hidden_s ≤ hidden_b then
      h.experts.map fun e => (1 - ind_s hidden_s e * ind_b hidden_b e) * gft_diff
    else gfts
  { h with
    weights := List.zipWith (fun (w : ℝ) (l : ℚ) => w * Real.exp (-h.epsilon * (l : ℝ)))
      h.weights gft_losses
    gft := List.zipWith (fun (g x : ℚ) => g + x) h.gft gfts }

/-- `Hedge.update_weights_with_rescaling(hidden_s, hidden_b, s_dot, b_dot)`:
every expert is first remapped through the affine/quadratic rescaling. -/
noncomputable def Hedge.update_weights_with_rescaling
    (h : Hedge) (hidden_s hidden_b s_dot b_dot : ℚ) : Hedge :=
  let rescaling_factor := (b_dot - s_dot) ^ 2
  let gft_diff := hidden_b - hidden_s
  let ind := fun e : ℚ × ℚ =>
    (if hidden_s ≤ s_dot + e.1 * rescaling_factor then (1 : ℚ) else 0) *
      (if b_dot - (1 - e.2) * rescaling_factor ≤ hidden_b then (1 : ℚ) else 0)
  let gfts := h.experts.map fun e => ind e * gft_diff
  let gft_losses :=
    if hidden_s ≤ hidden_b then h.experts.map fun e => (1 - ind e) * gft_diff
    else gfts
  { h with
    weights := List.zipWith (fun (w : ℝ) (l : ℚ) => w * Real.exp (-h.epsilon * (l : ℝ)))
      h.weights gft_losses
    gft := List.zipWith (fun (g x : ℚ) => g + x) h.gft gfts }

/-- `ConstrainedGFTMax.rescale_action(action, s_dot, b_dot)`. -/
def rescale_action (action : ℚ × ℚ) (s_dot b_dot : ℚ) : ℚ × ℚ :=
  (s_dot + action.1 * (b_dot - s_dot) ^ 2,
   b_dot - (1 - action.2) * (b_dot - s_dot) ^ 2)

/-- Loop bound `int(np.log(K) + 1)` from `create_multiplicative_grid`
(for `K ≥ 1` the argument is `≥ 1`, so `int` truncation is the floor). -/
noncomputable def numExponents (K : ℕ) : ℕ := (⌊Real.log (K : ℝ) + 1⌋).toNat

/-- Body of `GFTMax.create_multiplicative_grid`, with the exponent-loop
bound `E` made a parameter so the list is computable. -/
def multGridAux (E K : ℕ) : List (ℚ × ℚ) :=
  (List.range (K + 1)).flatMap fun k =>
    ((k : ℚ) / (K : ℚ), (k : ℚ) / (K : ℚ)) ::
      (List.range E).flatMap fun i =>
        (if (k : ℚ) / (K : ℚ) - (1 / 2) ^ i ≥ 0 then
            [((k : ℚ) / (K : ℚ) - (1 / 2) ^ i, (k : ℚ) / (K : ℚ))]
          else []) ++
        (if (k : ℚ) / (K : ℚ) + (1 / 2) ^ i ≤ 1 then
            [((k : ℚ) / (K : ℚ), (k : ℚ) / (K : ℚ) + (1 / 2) ^ i)]
          else [])

/-- `GFTMax.create_multiplicative_grid(K)`. -/
noncomputable def create_multiplicative_grid (K : ℕ) : List (ℚ × ℚ) :=
  multGridAux (numExponents K) K

/-- `GFTMax.create_additive_grid(K)`: pairs `((i+1)/K, i/K)` for `i < K`. -/
def create_additive_grid (K : ℕ) : List (ℚ × ℚ) :=
  (List.range K).map fun i => (((i : ℚ) + 1) / (K : ℚ), (i : ℚ) / (K : ℚ))

/-- Mechanism state shared by `GFTMax` and `ConstrainedGFTMax`. -/
@[ext] structure Mechanism where
  budget : ℚ
  gft : ℚ
  budget_threshold : ℝ
  K : ℕ
  T : ℕ
  run_profit_max : Bool
  hedge_profit : Hedge
  hedge_gft : Hedge

/-- `GFTMax.__init__(T, environment)`: `K = int(sqrt(T))` is the natural
square root, the threshold is the real `sqrt(T)`. -/
noncomputable def GFTMax.init (T : ℕ) : Mechanism :=
  { budget := 0
    gft := 0
    budget_threshold := Real.sqrt (T : ℝ)
    K := Nat.sqrt T
    T := T
    run_profit_max := true
    hedge_profit := Hedge.init (create_multiplicative_grid (Nat.sqrt T)) T
    hedge_gft := Hedge.init (create_additive_grid (Nat.sqrt T)) T }

/-- `GFTMax.update_budget(action, feedback)`. -/
def update_budget (action feedback : ℚ × ℚ) (budget : ℚ) : ℚ :=
  if feedback.1 ≤ action.1 ∧ action.2 ≤ feedback.2 then
    budget + (action.2 - action.1)
  else budget

/-- `GFTMax.update_gft(action, feedback)`. -/
def update_gft (action feedback : ℚ × ℚ) (g : ℚ) : ℚ :=
  if feedback.1 ≤ action.1 ∧ action.2 ≤ feedback.2 then
    g + (feedback.2 - feedback.1)
  else g

/-- `GFTMax.profit_max(i)` with the sampled expert index `c` and the
environment's feedback passed explicitly. -/
noncomputable def GFTMax.profit_max (m : Mechanism) (c : ℕ) (fb : ℚ × ℚ) : Mechanism :=
  let action := m.hedge_profit.experts.getD c (0, 0)
  let newBudget := update_budget action fb m.budget
  { m with
    hedge_profit := m.hedge_profit.update_weights fb.1 fb.2
    budget := newBudget
    gft := update_gft action fb m.gft
    run_profit_max :=
      if m.budget_threshold ≤ (newBudget : ℝ) then false else m.run_profit_max }

/-- `GFTMax.gft_max(i)`: both learners' weights are updated, the action is
drawn from the additive-grid learner, and the phase flag is untouched. -/
noncomputable def GFTMax.gft_max (m : Mechanism) (c : ℕ) (fb : ℚ × ℚ) : Mechanism :=
  let action := m.hedge_gft.experts.getD c (0, 0)
  { m with
    hedge_gft := m.hedge_gft.update_weights fb.1 fb.2
    hedge_profit := m.hedge_profit.update_weights fb.1 fb.2
    budget := update_budget action fb m.budget
    gft := update_gft action fb m.gft }

/-- One round of `GFTMax.run`. -/
noncomputable def GFTMax.step (m : Mechanism) (c : ℕ) (fb : ℚ × ℚ) : Mechanism :=
  if m.run_profit_max then GFTMax.profit_max m c fb else GFTMax.gft_max m c fb

/-- State after the first `n` rounds of `GFTMax.run`, with the sampled
indices `c` and the environment `env` given as sequences. -/
noncomputable def GFTMax.runFrom (m : Mechanism) (c : ℕ → ℕ) (env : ℕ → ℚ × ℚ) :
    ℕ → Mechanism
  | 0 => m
  | n + 1 => GFTMax.step (GFTMax.runFrom m c env n) (c n) (env n)

/-- `ConstrainedGFTMax.profit_max(i)`; `cons` is
`environment.get_constraints(i)`. -/
noncomputable def ConstrainedGFTMax.profit_max (m : Mechanism) (c : ℕ)
    (fb cons : ℚ × ℚ) : Mechanism :=
  let action0 := m.hedge_profit.experts.getD c (0, 0)
  let action :=
    if action0.1 < cons.1 ∨ cons.2 < action0.2 then
      rescale_action action0 cons.1 cons.2
    else action0
  let hp :=
    if action0.1 < cons.1 ∨ cons.2 < action0.2 then
      m.hedge_profit.update_weights_with_rescaling fb.1 fb.2 cons.1 cons.2
    else m.hedge_profit.update_weights fb.1 fb.2
  let newBudget := update_budget action fb m.budget
  { m with
    hedge_profit := hp
    budget := newBudget
    gft := update_gft action fb m.gft
    run_profit_max :=
      if m.budget_threshold ≤ (newBudget : ℝ) then false else m.run_profit_max }

/-- `ConstrainedGFTMax.gft_max(i)`. -/
noncomputable def ConstrainedGFTMax.gft_max (m : Mechanism) (c : ℕ)
    (fb cons : ℚ × ℚ) : Mechanism :=
  let action0 := m.hedge_gft.experts.getD c (0, 0)
  let action :=
    if action0.1 < cons.1 ∨ cons.2 < action0.2 then
      rescale_action action0 cons.1 cons.2
    else action0
  let hg :=
    if action0.1 < cons.1 ∨ cons.2 < action0.2 then
      m.hedge_gft.update_weights_with_rescaling fb.1 fb.2 cons.1 cons.2
    else m.hedge_gft.update_weights fb.1 fb.2
  let hp :=
    if action0.1 < cons.1 ∨ cons.2 < action0.2 then
      m.hedge_profit.update_weights_with_rescaling fb.1 fb.2 cons.1 cons.2
    else m.hedge_profit.update_weights fb.1 fb.2
  { m with
    hedge_gft := hg
    hedge_profit := hp
    budget := update_budget action fb m.budget
    gft := update_gft action fb m.gft }

/-- One round of `ConstrainedGFTMax.run` (inherited `run` dispatching on
the phase flag). -/
noncomputable def ConstrainedGFTMax.step (m : Mechanism) (c : ℕ) (fb cons : ℚ × ℚ) :
    Mechanism :=
  if m.run_profit_max then ConstrainedGFTMax.profit_max m c fb cons
  else ConstrainedGFTMax.gft_max m c fb cons

/-- State after the first `n` rounds of `ConstrainedGFTMax.run`. -/
noncomputable def ConstrainedGFTMax.runFrom (m : Mechanism) (c : ℕ → ℕ)
    (env cons : ℕ → ℚ × ℚ) : ℕ → Mechanism
  | 0 => m
  | n + 1 =>
    ConstrainedGFTMax.step (ConstrainedGFTMax.runFrom m c env cons n) (c n) (env n) (cons n)


/-- Constant environment used in concrete executions: valuations `(0, 1)`
every round. -/
def envSeq : ℕ → ℚ × ℚ := fun _ => (0, 1)

/-- Sampled indices for the concrete `GFTMax.run` execution: expert `1`
of the multiplicative grid in the two profit rounds, expert `0` of the
additive grid afterwards. -/
def cSeq : ℕ → ℕ := fun n => if n < 2 then 1 else 0

/-- Index sequence that always samples expert `0`. -/
def cZero : ℕ → ℕ := fun _ => 0

/-- Small concrete mechanism state used to instantiate theorems. -/
noncomputable def mWit : Mechanism :=
  { budget := 0
    gft := 0
    budget_threshold := 1
    K := 1
    T := 1
    run_profit_max := true
    hedge_profit := Hedge.init [(0, 1)] 1
    hedge_gft := Hedge.init [(0, 1)] 1 }

/-- The same concrete state with the phase flag already switched. -/
noncomputable def mWitOff : Mechanism := { mWit with run_profit_max := false }

/-- Membership predicate transcribing the spec's description of the
multiplicative grid, with the exponent-range bound `E` a parameter: the
claim takes `E = ⌊ln K⌋`, the code uses `⌊ln K⌋ + 1`. -/
def specGridMem (E K : ℕ) (p : ℚ × ℚ) : Prop :=
  (∃ k, k ≤ K ∧ p = ((k : ℚ) / (K : ℚ), (k : ℚ) / (K : ℚ))) ∨
  (∃ k, k ≤ K ∧ ∃ i, i < E ∧
    (((k : ℚ) / (K : ℚ) - (1 / 2) ^ i ≥ 0 ∧
        p = ((k : ℚ) / (K : ℚ) - (1 / 2) ^ i, (k : ℚ) / (K : ℚ))) ∨
     ((k : ℚ) / (K : ℚ) + (1 / 2) ^ i ≤ 1 ∧
        p = ((k : ℚ) / (K : ℚ), (k : ℚ) / (K : ℚ) + (1 / 2) ^ i))))

lemma Hedge.update_weights_experts (h : Hedge) (s b : ℚ) :
    (h.update_weights s b).experts = h.experts := rfl

lemma Hedge.update_weights_epsilon (h : Hedge) (s b : ℚ) :
    (h.update_weights s b).epsilon = h.epsilon := rfl

lemma getD_zipWith_exp (eps : ℝ) (ws : List ℝ) (ls : List ℚ) (e : ℕ)
    (h1 : e < ws.length) (h2 : e < ls.length) :
    (List.zipWith (fun (w : ℝ) (l : ℚ) => w * Real.exp (-eps * (l : ℝ))) ws ls).getD e 0 =
      ws.getD e 0 * Real.exp (-eps * ((ls.getD e 0 : ℚ) : ℝ)) := by
  rw [List.getD_eq_getElem _ _ (by simp [List.length_zipWith]; omega),
    List.getElem_zipWith, List.getD_eq_getElem _ _ h1, List.getD_eq_getElem _ _ h2]

lemma getD_zipWith_add (gs ls : List ℚ) (e : ℕ)
    (h1 : e < gs.length) (h2 : e < ls.length) :
    (List.zipWith (fun (g x : ℚ) => g + x) gs ls).getD e 0 =
      gs.getD e 0 + ls.getD e 0 := by
  rw [List.getD_eq_getElem _ _ (by simp [List.length_zipWith]; omega),
    List.getElem_zipWith, List.getD_eq_getElem _ _ h1, List.getD_eq_getElem _ _ h2]

lemma getD_map_pair (f : ℚ × ℚ → ℚ) (l : List (ℚ × ℚ)) (e : ℕ) (he : e < l.length) :
    (l.map f).getD e 0 = f (l.getD e (0, 0)) := by
  rw [List.getD_eq_getElem _ _ (by simpa using he), List.getElem_map,
    List.getD_eq_getElem _ _ he]

lemma Hedge.update_weights_weights_length (h : Hedge) (s b : ℚ)
    (hw : h.weights.length = h.experts.length) :
    (h.update_weights s b).weights.length = h.experts.length := by
  unfold Hedge.update_weights
  split <;> simp [hw]

lemma Hedge.update_weights_gft_length (h : Hedge) (s b : ℚ)
    (hg : h.gft.length = h.experts.length) :
    (h.update_weights s b).gft.length = h.experts.length := by
  unfold Hedge.update_weights
  simp [hg]

lemma Hedge.update_weights_weights_getD (h : Hedge) (s b : ℚ) (e : ℕ)
    (he : e < h.experts.length) (hw : h.weights.length = h.experts.length) :
    (h.update_weights s b).weights.getD e 0 =
      h.weights.getD e 0 *
        Real.exp (-h.epsilon *
          ((if s ≤ b then
              (1 - ind_s s (h.experts.getD e (0, 0)) * ind_b b (h.experts.getD e (0, 0))) * (b - s)
            else
              ind_s s (h.experts.getD e (0, 0)) * ind_b b (h.experts.getD e (0, 0)) * (b - s) : ℚ) : ℝ)) := by
  unfold Hedge.update_weights
  by_cases hsb : s ≤ b <;>
    simp only [if_pos, if_neg, hsb, if_true, if_false, ite_true, ite_false] <;>
    rw [getD_zipWith_exp _ _ _ _ (by omega) (by simp [he]),
      getD_map_pair _ _ _ he]

lemma Hedge.update_weights_gft_getD (h : Hedge) (s b : ℚ) (e : ℕ)
    (he : e < h.experts.length) (hg : h.gft.length = h.experts.length) :
    (h.update_weights s b).gft.getD e 0 =
      h.gft.getD e 0 +
        ind_s s (h.experts.getD e (0, 0)) * ind_b b (h.experts.getD e (0, 0)) * (b - s) := by
  unfold Hedge.update_weights
  rw [getD_zipWith_add _ _ _ (by omega) (by simp [he]), getD_map_pair _ _ _ he]

/-- C2: for every pair `(hidden_s, hidden_b)` and every expert
`e = (ask_e, bid_e)` of the learner, `updateWeights` computes
`feasible_e = (hidden_s ≤ ask_e ∧ bid_e ≤ hidden_b)`,
`potential = hidden_b − hidden_s`, `realized_e = potential` if feasible
else `0`, `loss_e = (feasible ? 0 : potential)` when `potential ≥ 0` and
`loss_e = realized_e` when `potential < 0`, multiplies `weight_e` by
`exp(−epsilon·loss_e)` and adds `realized_e` to the per-expert gft
accumulator. -/
theorem C2_update_weights_spec (h : Hedge) (hidden_s hidden_b : ℚ) (e : ℕ)
    (he : e < h.experts.length)
    (hw : h.weights.length = h.experts.length)
    (hg : h.gft.length = h.experts.length) :
    (h.update_weights hidden_s hidden_b).weights.getD e 0 =
      h.weights.getD e 0 *
        Real.exp (-h.epsilon *
          ((if 0 ≤ hidden_b - hidden_s then
              (if hidden_s ≤ (h.experts.getD e (0, 0)).1 ∧ (h.experts.getD e (0, 0)).2 ≤ hidden_b
                then 0 else hidden_b - hidden_s)
            else
              (if hidden_s ≤ (h.experts.getD e (0, 0)).1 ∧ (h.experts.getD e (0, 0)).2 ≤ hidden_b
                then hidden_b - hidden_s else 0) : ℚ) : ℝ)) ∧
    (h.update_weights hidden_s hidden_b).gft.getD e 0 =
      h.gft.getD e 0 +
        (if hidden_s ≤ (h.experts.getD e (0, 0)).1 ∧ (h.experts.getD e (0, 0)).2 ≤ hidden_b
          then hidden_b - hidden_s else 0) := by
  constructor
  · rw [Hedge.update_weights_weights_getD h hidden_s hidden_b e he hw]
    simp only [sub_nonneg]
    generalize h.experts.getD e (0, 0) = ex
    by_cases hsb : hidden_s ≤ hidden_b <;>
      by_cases hf1 : hidden_s ≤ ex.1 <;>
        by_cases hf2 : ex.2 ≤ hidden_b <;>
          simp [hsb, hf1, hf2, ind_s, ind_b]
  · rw [Hedge.update_weights_gft_getD h hidden_s hidden_b e he hg]
    generalize h.experts.getD e (0, 0) = ex
    by_cases hf1 : hidden_s ≤ ex.1 <;>
      by_cases hf2 : ex.2 ≤ hidden_b <;>
        simp [hf1, hf2, ind_s, ind_b]

theorem C2_update_weights_spec_witness :
    ((Hedge.init [(0, 0), (1, 1)] 4).update_weights 0 1).gft.getD 0 0 =
      (Hedge.init [(0, 0), (1, 1)] 4).gft.getD 0 0 + 1 := by
  have h2 := (C2_update_weights_spec (Hedge.init [(0, 0), (1, 1)] 4) 0 1 0
    (by simp [Hedge.init]) (by simp [Hedge.init]) (by simp [Hedge.init])).2
  simpa [Hedge.init] using h2

/-- C10: with bounds `s_dot = 0`, `b_dot = 1` the rescaling factor is `1`
and the transform maps every expert `(ask, bid)` to itself, so
`updateWeightsWithRescaling(s, b, 0, 1)` produces exactly the same
learner state as `updateWeights(s, b)`. -/
theorem C10_rescaling_bounds_identity (h : Hedge) (s b : ℚ) :
    h.update_weights_with_rescaling s b 0 1 = h.update_weights s b := by
  unfold Hedge.update_weights_with_rescaling Hedge.update_weights
  simp [ind_s, ind_b]

lemma ind_mul_eq_ite (s b : ℚ) (e : ℚ × ℚ) :
    ind_s s e * ind_b b e = if s ≤ e.1 ∧ e.2 ≤ b then 1 else 0 := by
  by_cases h1 : s ≤ e.1 <;> by_cases h2 : e.2 ≤ b <;> simp [ind_s, ind_b, h1, h2]

lemma Hedge.update_weights_with_rescaling_gft_getD (h : Hedge)
    (s b s_dot b_dot : ℚ) (e : ℕ)
    (he : e < h.experts.length) (hg : h.gft.length = h.experts.length) :
    (h.update_weights_with_rescaling s b s_dot b_dot).gft.getD e 0 =
      h.gft.getD e 0 +
        (if s ≤ s_dot + (h.experts.getD e (0, 0)).1 * (b_dot - s_dot) ^ 2 then (1 : ℚ) else 0) *
          (if b_dot - (1 - (h.experts.getD e (0, 0)).2) * (b_dot - s_dot) ^ 2 ≤ b then (1 : ℚ) else 0) *
          (b - s) := by
  unfold Hedge.update_weights_with_rescaling
  rw [getD_zipWith_add _ _ _ (by omega) (by simp [he]), getD_map_pair _ _ _ he]

/-- C4 fails as stated: a feasible expert under feedback with
`hidden_b < hidden_s` accumulates the negative potential, so the
per-expert gft accumulator strictly decreases on that call. -/
theorem C4_counterexample :
    ((Hedge.init [(1, 0)] 1).update_weights 1 0).gft.getD 0 0 <
      (Hedge.init [(1, 0)] 1).gft.getD 0 0 := by
  rw [Hedge.update_weights_gft_getD _ _ _ 0 (by simp [Hedge.init]) (by simp [Hedge.init])]
  simp [Hedge.init, ind_s, ind_b]

/-- C4 amended: the per-expert gft accumulator is non-decreasing on every
`updateWeights` or `updateWeightsWithRescaling` call whose feedback
satisfies `hidden_s ≤ hidden_b`; when `hidden_b < hidden_s` a feasible
expert's accumulator decreases. -/
theorem C4_gft_monotone_amended (h : Hedge) (hidden_s hidden_b s_dot b_dot : ℚ) (e : ℕ)
    (he : e < h.experts.length) (hg : h.gft.length = h.experts.length)
    (hsb : hidden_s ≤ hidden_b) :
    h.gft.getD e 0 ≤ (h.update_weights hidden_s hidden_b).gft.getD e 0 ∧
    h.gft.getD e 0 ≤
      (h.update_weights_with_rescaling hidden_s hidden_b s_dot b_dot).gft.getD e 0 := by
  constructor
  · rw [Hedge.update_weights_gft_getD h hidden_s hidden_b e he hg]
    have h0 : (0 : ℚ) ≤ ind_s hidden_s (h.experts.getD e (0, 0)) *
        ind_b hidden_b (h.experts.getD e (0, 0)) * (hidden_b - hidden_s) := by
      rw [ind_mul_eq_ite]
      split <;> simp [sub_nonneg, hsb]
    linarith
  · rw [Hedge.update_weights_with_rescaling_gft_getD h hidden_s hidden_b s_dot b_dot e he hg]
    have h0 : (0 : ℚ) ≤
        (if hidden_s ≤ s_dot + (h.experts.getD e (0, 0)).1 * (b_dot - s_dot) ^ 2 then (1 : ℚ) else 0) *
          (if b_dot - (1 - (h.experts.getD e (0, 0)).2) * (b_dot - s_dot) ^ 2 ≤ hidden_b then (1 : ℚ) else 0) *
          (hidden_b - hidden_s) := by
      split <;> split <;> simp [sub_nonneg, hsb]
    linarith

theorem C4_gft_monotone_amended_witness :
    (Hedge.init [(0, 1)] 2).gft.getD 0 0 ≤
      ((Hedge.init [(0, 1)] 2).update_weights 0 1).gft.getD 0 0 := by
  exact (C4_gft_monotone_amended (Hedge.init [(0, 1)] 2) 0 1 0 1 0
    (by simp [Hedge.init]) (by simp [Hedge.init]) (by norm_num)).1

lemma Hedge.update_weights_same_factor (h : Hedge) (s b : ℚ) (i j : ℕ)
    (hi : i < h.experts.length) (hj : j < h.experts.length)
    (hw : h.weights.length = h.experts.length)
    (hiff : (s ≤ (h.experts.getD i (0, 0)).1 ∧ (h.experts.getD i (0, 0)).2 ≤ b) ↔
      (s ≤ (h.experts.getD j (0, 0)).1 ∧ (h.experts.getD j (0, 0)).2 ≤ b)) :
    ∃ c : ℝ, 0 < c ∧
      (h.update_weights s b).weights.getD i 0 = h.weights.getD i 0 * c ∧
      (h.update_weights s b).weights.getD j 0 = h.weights.getD j 0 * c := by
  have hind : ind_s s (h.experts.getD i (0, 0)) * ind_b b (h.experts.getD i (0, 0)) =
      ind_s s (h.experts.getD j (0, 0)) * ind_b b (h.experts.getD j (0, 0)) := by
    rw [ind_mul_eq_ite, ind_mul_eq_ite]
    by_cases hc : s ≤ (h.experts.getD i (0, 0)).1 ∧ (h.experts.getD i (0, 0)).2 ≤ b
    · rw [if_pos hc, if_pos (hiff.mp hc)]
    · rw [if_neg hc, if_neg (fun hc' => hc (hiff.mpr hc'))]
  refine ⟨Real.exp (-h.epsilon *
      ((if s ≤ b then
          (1 - ind_s s (h.experts.getD i (0, 0)) * ind_b b (h.experts.getD i (0, 0))) * (b - s)
        else
          ind_s s (h.experts.getD i (0, 0)) * ind_b b (h.experts.getD i (0, 0)) * (b - s) : ℚ) : ℝ)),
    Real.exp_pos _, Hedge.update_weights_weights_getD h s b i hi hw, ?_⟩
  rw [Hedge.update_weights_weights_getD h s b j hj hw, hind]

lemma Hedge.foldl_update_same_factor (rounds : List (ℚ × ℚ)) (h : Hedge) (i j : ℕ)
    (hi : i < h.experts.length) (hj : j < h.experts.length)
    (hw : h.weights.length = h.experts.length)
    (hsim : ∀ p ∈ rounds,
      (p.1 ≤ (h.experts.getD i (0, 0)).1 ∧ (h.experts.getD i (0, 0)).2 ≤ p.2) ↔
        (p.1 ≤ (h.experts.getD j (0, 0)).1 ∧ (h.experts.getD j (0, 0)).2 ≤ p.2)) :
    ∃ C : ℝ, 0 < C ∧
      (rounds.foldl (fun a p => a.update_weights p.1 p.2) h).weights.getD i 0 =
        h.weights.getD i 0 * C ∧
      (rounds.foldl (fun a p => a.update_weights p.1 p.2) h).weights.getD j 0 =
        h.weights.getD j 0 * C := by
  induction rounds generalizing h with
  | nil => exact ⟨1, by norm_num, by simp, by simp⟩
  | cons p rest ih =>
    obtain ⟨c, hc, hci, hcj⟩ := Hedge.update_weights_same_factor h p.1 p.2 i j hi hj hw
      (hsim p (List.mem_cons_self p rest))
    obtain ⟨C, hC, hCi, hCj⟩ := ih (h.update_weights p.1 p.2)
      (by rw [Hedge.update_weights_experts]; exact hi)
      (by rw [Hedge.update_weights_experts]; exact hj)
      (by rw [Hedge.update_weights_experts]
          exact Hedge.update_weights_weights_length h p.1 p.2 hw)
      (by rw [Hedge.update_weights_experts]
          exact fun q hq => hsim q (List.mem_cons_of_mem p hq))
    refine ⟨c * C, mul_pos hc hC, ?_, ?_⟩
    · rw [List.foldl_cons, hCi, hci, mul_assoc]
    · rw [List.foldl_cons, hCj, hcj, mul_assoc]

/-- C9: if experts `i` and `j` are simultaneously feasible or infeasible
in every processed round, all their losses coincide, so every
`updateWeights` call multiplies both weights by one common positive
factor: the ratio `weight_i / weight_j` and the relative ordering of the
two weights are preserved across the whole sequence of rounds. -/
theorem C9_order_preservation (h : Hedge) (rounds : List (ℚ × ℚ)) (i j : ℕ)
    (hi : i < h.experts.length) (hj : j < h.experts.length)
    (hw : h.weights.length = h.experts.length)
    (hsim : ∀ p ∈ rounds,
      (p.1 ≤ (h.experts.getD i (0, 0)).1 ∧ (h.experts.getD i (0, 0)).2 ≤ p.2) ↔
        (p.1 ≤ (h.experts.getD j (0, 0)).1 ∧ (h.experts.getD j (0, 0)).2 ≤ p.2)) :
    ∃ C : ℝ, 0 < C ∧
      (rounds.foldl (fun a p => a.update_weights p.1 p.2) h).weights.getD i 0 =
        h.weights.getD i 0 * C ∧
      (rounds.foldl (fun a p => a.update_weights p.1 p.2) h).weights.getD j 0 =
        h.weights.getD j 0 * C ∧
      (rounds.foldl (fun a p => a.update_weights p.1 p.2) h).weights.getD i 0 /
          (rounds.foldl (fun a p => a.update_weights p.1 p.2) h).weights.getD j 0 =
        h.weights.getD i 0 / h.weights.getD j 0 ∧
      (h.weights.getD i 0 ≤ h.weights.getD j 0 ↔
        (rounds.foldl (fun a p => a.update_weights p.1 p.2) h).weights.getD i 0 ≤
          (rounds.foldl (fun a p => a.update_weights p.1 p.2) h).weights.getD j 0) := by
  obtain ⟨C, hC, hCi, hCj⟩ := Hedge.foldl_update_same_factor rounds h i j hi hj hw hsim
  refine ⟨C, hC, hCi, hCj, ?_, ?_⟩
  · rw [hCi, hCj, mul_div_mul_right _ _ (ne_of_gt hC)]
  · rw [hCi, hCj]
    exact (mul_le_mul_right hC).symm

theorem C9_order_preservation_witness :
    ∃ C : ℝ, 0 < C ∧
      ([((0 : ℚ), (1 : ℚ))].foldl (fun a p => a.update_weights p.1 p.2)
            (Hedge.init [(0, 1), (0, 1)] 4)).weights.getD 0 0 =
        (Hedge.init [(0, 1), (0, 1)] 4).weights.getD 0 0 * C ∧
      ([((0 : ℚ), (1 : ℚ))].foldl (fun a p => a.update_weights p.1 p.2)
            (Hedge.init [(0, 1), (0, 1)] 4)).weights.getD 1 0 =
        (Hedge.init [(0, 1), (0, 1)] 4).weights.getD 1 0 * C ∧
      ([((0 : ℚ), (1 : ℚ))].foldl (fun a p => a.update_weights p.1 p.2)
            (Hedge.init [(0, 1), (0, 1)] 4)).weights.getD 0 0 /
          ([((0 : ℚ), (1 : ℚ))].foldl (fun a p => a.update_weights p.1 p.2)
            (Hedge.init [(0, 1), (0, 1)] 4)).weights.getD 1 0 =
        (Hedge.init [(0, 1), (0, 1)] 4).weights.getD 0 0 /
          (Hedge.init [(0, 1), (0, 1)] 4).weights.getD 1 0 ∧
      ((Hedge.init [(0, 1), (0, 1)] 4).weights.getD 0 0 ≤
          (Hedge.init [(0, 1), (0, 1)] 4).weights.getD 1 0 ↔
        ([((0 : ℚ), (1 : ℚ))].foldl (fun a p => a.update_weights p.1 p.2)
              (Hedge.init [(0, 1), (0, 1)] 4)).weights.getD 0 0 ≤
          ([((0 : ℚ), (1 : ℚ))].foldl (fun a p => a.update_weights p.1 p.2)
            (Hedge.init [(0, 1), (0, 1)] 4)).weights.getD 1 0) := by
  exact C9_order_preservation (Hedge.init [(0, 1), (0, 1)] 4) [(0, 1)] 0 1
    (by simp [Hedge.init]) (by simp [Hedge.init]) (by simp [Hedge.init])
    (by intro p hp; simp [Hedge.init])

/-- C6 fails as stated: with bounds `s_dot = 0`, `b_dot = 2` (width `2`,
permitted by the claim) and the normalized action `(1, 0)`, the rescaled
pair is `(4, -2)`, which lies outside `[0, 2]` on both coordinates. -/
theorem C6_counterexample :
    (0 : ℚ) ≤ 1 ∧ (1 : ℚ) ≤ 1 ∧ (0 : ℚ) ≤ 0 ∧ (0 : ℚ) ≤ 1 ∧ (0 : ℚ) ≤ 2 ∧
      ¬((rescale_action (1, 0) 0 2).1 ≤ 2) ∧ ¬((0 : ℚ) ≤ (rescale_action (1, 0) 0 2).2) := by
  norm_num [rescale_action]

/-- C6 amended: for every action with both coordinates in `[0, 1]` and
bounds with `s_dot ≤ b_dot` whose width satisfies `b_dot − s_dot ≤ 1`,
the rescaled pair lies within `[s_dot, b_dot]`; for wider bounds the
guarantee fails. -/
theorem C6_rescale_within_bounds_amended (action : ℚ × ℚ) (s_dot b_dot : ℚ)
    (h1 : 0 ≤ action.1) (h2 : action.1 ≤ 1) (h3 : 0 ≤ action.2) (h4 : action.2 ≤ 1)
    (hsb : s_dot ≤ b_dot) (hwidth : b_dot - s_dot ≤ 1) :
    s_dot ≤ (rescale_action action s_dot b_dot).1 ∧
    (rescale_action action s_dot b_dot).1 ≤ b_dot ∧
    s_dot ≤ (rescale_action action s_dot b_dot).2 ∧
    (rescale_action action s_dot b_dot).2 ≤ b_dot := by
  unfold rescale_action
  refine ⟨?_, ?_, ?_, ?_⟩ <;> simp only <;> nlinarith [sq_nonneg (b_dot - s_dot)]

theorem C6_rescale_within_bounds_amended_witness :
    (0 : ℚ) ≤ (rescale_action ((1 : ℚ) / 10, 9 / 10) 0 (1 / 2)).1 ∧
      (rescale_action ((1 : ℚ) / 10, 9 / 10) 0 (1 / 2)).1 ≤ 1 / 2 ∧
      (0 : ℚ) ≤ (rescale_action ((1 : ℚ) / 10, 9 / 10) 0 (1 / 2)).2 ∧
      (rescale_action ((1 : ℚ) / 10, 9 / 10) 0 (1 / 2)).2 ≤ 1 / 2 := by
  exact C6_rescale_within_bounds_amended ((1 : ℚ) / 10, 9 / 10) 0 (1 / 2)
    (by norm_num) (by norm_num) (by norm_num) (by norm_num) (by norm_num) (by norm_num)

/-- C8: whenever the chosen action already satisfies the round's
constraints (`ask ≥ s_dot` and `bid ≤ b_dot`), the constrained mechanism's
step — in either phase — produces exactly the same state transition as
the unconstrained `TradeMechanism` step with the same chosen action and
the same feedback. -/
theorem C8_constrained_refines_unconstrained (m : Mechanism) (c : ℕ) (fb cons : ℚ × ℚ) :
    (¬((m.hedge_profit.experts.getD c (0, 0)).1 < cons.1 ∨
        cons.2 < (m.hedge_profit.experts.getD c (0, 0)).2) →
      ConstrainedGFTMax.profit_max m c fb cons = GFTMax.profit_max m c fb) ∧
    (¬((m.hedge_gft.experts.getD c (0, 0)).1 < cons.1 ∨
        cons.2 < (m.hedge_gft.experts.getD c (0, 0)).2) →
      ConstrainedGFTMax.gft_max m c fb cons = GFTMax.gft_max m c fb) := by
  constructor
  · intro hfeas
    unfold ConstrainedGFTMax.profit_max GFTMax.profit_max
    simp only [if_neg hfeas]
  · intro hfeas
    unfold ConstrainedGFTMax.gft_max GFTMax.gft_max
    simp only [if_neg hfeas]

theorem C8_constrained_refines_unconstrained_witness :
    ConstrainedGFTMax.profit_max mWit 0 (0, 1) (0, 1) = GFTMax.profit_max mWit 0 (0, 1) ∧
      ConstrainedGFTMax.gft_max mWit 0 (0, 1) (0, 1) = GFTMax.gft_max mWit 0 (0, 1) := by
  have h := C8_constrained_refines_unconstrained mWit 0 (0, 1) (0, 1)
  exact ⟨h.1 (by simp [mWit, Hedge.init]), h.2 (by simp [mWit, Hedge.init])⟩

lemma GFTMax.step_keeps_flag_false (m : Mechanism) (c : ℕ) (fb : ℚ × ℚ)
    (hm : m.run_profit_max = false) :
    (GFTMax.step m c fb).run_profit_max = false := by
  simp [GFTMax.step, GFTMax.gft_max, hm]

lemma ConstrainedGFTMax.cstep_keeps_flag_false (m : Mechanism) (c : ℕ) (fb cons : ℚ × ℚ)
    (hm : m.run_profit_max = false) :
    (ConstrainedGFTMax.step m c fb cons).run_profit_max = false := by
  simp [ConstrainedGFTMax.step, ConstrainedGFTMax.gft_max, hm]

/-- C3: in both `TradeMechanism` and `ConstrainedTradeMechanism`, once the
phase flag has switched away from the profit-maximizing phase it stays
switched: at every later round, for any feedback, constraints and sampled
indices, the flag is still `false`. -/
theorem C3_one_way_phase (m : Mechanism) (c : ℕ → ℕ) (env cons : ℕ → ℚ × ℚ)
    (n n' : ℕ) (hle : n ≤ n') :
    ((GFTMax.runFrom m c env n).run_profit_max = false →
      (GFTMax.runFrom m c env n').run_profit_max = false) ∧
    ((ConstrainedGFTMax.runFrom m c env cons n).run_profit_max = false →
      (ConstrainedGFTMax.runFrom m c env cons n').run_profit_max = false) := by
  constructor
  · intro hf
    induction n', hle using Nat.le_induction with
    | base => exact hf
    | succ k hk ih => exact GFTMax.step_keeps_flag_false _ _ _ ih
  · intro hf
    induction n', hle using Nat.le_induction with
    | base => exact hf
    | succ k hk ih => exact ConstrainedGFTMax.cstep_keeps_flag_false _ _ _ _ ih

theorem C3_one_way_phase_witness :
    (GFTMax.runFrom mWitOff cZero envSeq 1).run_profit_max = false ∧
      (ConstrainedGFTMax.runFrom mWitOff cZero envSeq envSeq 1).run_profit_max = false :=
  ⟨(C3_one_way_phase mWitOff cZero envSeq envSeq 0 1 (by norm_num)).1 rfl,
   (C3_one_way_phase mWitOff cZero envSeq envSeq 0 1 (by norm_num)).2 rfl⟩

/-- C7: the spec requires construction with an expert set of size `< 2`
(or a non-positive horizon) to fail with `InvalidConfiguration`, but the
source performs no validation at all: a learner over the single expert
`(0, 0)` is silently constructed as a usable object, with learning rate
`sqrt(ln 1 / T) = 0` and weight vector `[1]`. -/
theorem C7_silent_construction :
    (Hedge.init [(0, 0)] 10).epsilon = 0 ∧
      (Hedge.init [(0, 0)] 10).weights = [1] ∧
      (Hedge.init [(0, 0)] 10).experts.length = 1 := by
  refine ⟨?_, ?_, by simp [Hedge.init]⟩
  · simp [Hedge.init]
  · simp [Hedge.init]

lemma mem_ite_singleton {α : Type} {c : Prop} [Decidable c] {x p : α} :
    (p ∈ if c then [x] else []) ↔ c ∧ p = x := by
  by_cases h : c <;> simp [h]

lemma mem_multGridAux (E K : ℕ) (p : ℚ × ℚ) :
    p ∈ multGridAux E K ↔ specGridMem E K p := by
  unfold multGridAux specGridMem
  simp only [List.mem_flatMap, List.mem_cons, List.mem_range, List.mem_append,
    mem_ite_singleton, Nat.lt_succ_iff, ge_iff_le]
  constructor
  · rintro ⟨k, hk, h | ⟨i, hi, h | h⟩⟩
    · exact Or.inl ⟨k, hk, h⟩
    · exact Or.inr ⟨k, hk, i, hi, Or.inl ⟨h.1, h.2⟩⟩
    · exact Or.inr ⟨k, hk, i, hi, Or.inr ⟨h.1, h.2⟩⟩
  · rintro (⟨k, hk, h⟩ | ⟨k, hk, i, hi, h | h⟩)
    · exact ⟨k, hk, Or.inl h⟩
    · exact ⟨k, hk, Or.inr ⟨i, hi, Or.inl ⟨h.1, h.2⟩⟩⟩
    · exact ⟨k, hk, Or.inr ⟨i, hi, Or.inr ⟨h.1, h.2⟩⟩⟩

lemma numExponents_one : numExponents 1 = 1 := by
  unfold numExponents
  norm_num [Real.log_one]

lemma numExponents_eq (K : ℕ) (hK : 1 ≤ K) :
    numExponents K = (⌊Real.log (K : ℝ)⌋).toNat + 1 := by
  have h0 : (0 : ℝ) ≤ Real.log (K : ℝ) :=
    Real.log_nonneg (by exact_mod_cast hK)
  have h1 : (0 : ℤ) ≤ ⌊Real.log (K : ℝ)⌋ := Int.floor_nonneg.mpr h0
  unfold numExponents
  rw [Int.floor_add_one]
  omega

/-- C5 fails as stated: for `K = 1` the claimed exponent range
`[0, ⌊ln 1⌋) = [0, 0)` is empty, so the claim predicts only the diagonal
pairs `(0,0)` and `(1,1)`; the code's loop bound is `int(ln K + 1) = 1`,
and the grid actually contains the off-diagonal pair `(0, 1)`. -/
theorem C5_counterexample :
    ((0 : ℚ), (1 : ℚ)) ∈ create_multiplicative_grid 1 ∧
      ¬ specGridMem (⌊Real.log ((1 : ℕ) : ℝ)⌋).toNat 1 (0, 1) := by
  constructor
  · show _ ∈ multGridAux (numExponents 1) 1
    rw [numExponents_one]
    have hval : multGridAux 1 1 = [(0, 0), (0, 1), (1, 1), (0, 1)] := by
      norm_num [multGridAux, List.range_succ, List.range_zero,
        List.flatMap_cons, List.flatMap_nil]
    rw [hval]
    norm_num
  · rw [show (⌊Real.log ((1 : ℕ) : ℝ)⌋).toNat = 0 by norm_num [Real.log_one]]
    rintro (⟨k, hk, hp⟩ | ⟨k, hk, i, hi, h⟩)
    · rw [Prod.mk.injEq] at hp
      have h1 : (0 : ℚ) = (k : ℚ) / 1 := hp.1
      have h2 : (1 : ℚ) = (k : ℚ) / 1 := hp.2
      rw [← h1] at h2
      norm_num at h2
    · exact absurd hi (Nat.not_lt_zero i)

/-- C5 amended: for every `K ≥ 1`, `multiplicativeGrid(K)` consists of
exactly the diagonal pairs `(k/K, k/K)` for `k ∈ [0, K]` together with,
for each diagonal point and each exponent `i` in the range
`[0, ⌊ln K⌋ + 1)` (one more exponent than the claim states, matching the
code's `int(ln K + 1)` bound), the pair `(g_k − 2^-i, g_k)` when
`g_k − 2^-i ≥ 0` and the pair `(g_k, g_k + 2^-i)` when `g_k + 2^-i ≤ 1`. -/
theorem C5_multiplicative_grid_amended (K : ℕ) (hK : 1 ≤ K) (p : ℚ × ℚ) :
    p ∈ create_multiplicative_grid K ↔
      specGridMem ((⌊Real.log (K : ℝ)⌋).toNat + 1) K p := by
  show p ∈ multGridAux (numExponents K) K ↔ _
  rw [numExponents_eq K hK]
  exact mem_multGridAux _ _ _

theorem C5_multiplicative_grid_amended_witness :
    (((0 : ℚ), (0 : ℚ)) ∈ create_multiplicative_grid 1 ↔
      specGridMem ((⌊Real.log ((1 : ℕ) : ℝ)⌋).toNat + 1) 1 (0, 0)) :=
  C5_multiplicative_grid_amended 1 (by norm_num) (0, 0)

lemma GFTMax.profit_max_budget (m : Mechanism) (c : ℕ) (fb : ℚ × ℚ) :
    (GFTMax.profit_max m c fb).budget =
      update_budget (m.hedge_profit.experts.getD c (0, 0)) fb m.budget := rfl

lemma GFTMax.profit_max_gft (m : Mechanism) (c : ℕ) (fb : ℚ × ℚ) :
    (GFTMax.profit_max m c fb).gft =
      update_gft (m.hedge_profit.experts.getD c (0, 0)) fb m.gft := rfl

lemma GFTMax.profit_max_flag (m : Mechanism) (c : ℕ) (fb : ℚ × ℚ) :
    (GFTMax.profit_max m c fb).run_profit_max =
      if m.budget_threshold ≤
          ((update_budget (m.hedge_profit.experts.getD c (0, 0)) fb m.budget : ℚ) : ℝ)
        then false else m.run_profit_max := rfl

lemma GFTMax.profit_max_threshold (m : Mechanism) (c : ℕ) (fb : ℚ × ℚ) :
    (GFTMax.profit_max m c fb).budget_threshold = m.budget_threshold := rfl

lemma GFTMax.profit_max_hp_experts (m : Mechanism) (c : ℕ) (fb : ℚ × ℚ) :
    (GFTMax.profit_max m c fb).hedge_profit.experts = m.hedge_profit.experts := rfl

lemma GFTMax.profit_max_hg_experts (m : Mechanism) (c : ℕ) (fb : ℚ × ℚ) :
    (GFTMax.profit_max m c fb).hedge_gft.experts = m.hedge_gft.experts := rfl

lemma GFTMax.gft_max_budget (m : Mechanism) (c : ℕ) (fb : ℚ × ℚ) :
    (GFTMax.gft_max m c fb).budget =
      update_budget (m.hedge_gft.experts.getD c (0, 0)) fb m.budget := rfl

lemma GFTMax.gft_max_gft (m : Mechanism) (c : ℕ) (fb : ℚ × ℚ) :
    (GFTMax.gft_max m c fb).gft =
      update_gft (m.hedge_gft.experts.getD c (0, 0)) fb m.gft := rfl

lemma GFTMax.gft_max_flag (m : Mechanism) (c : ℕ) (fb : ℚ × ℚ) :
    (GFTMax.gft_max m c fb).run_profit_max = m.run_profit_max := rfl

lemma GFTMax.gft_max_threshold (m : Mechanism) (c : ℕ) (fb : ℚ × ℚ) :
    (GFTMax.gft_max m c fb).budget_threshold = m.budget_threshold := rfl

lemma GFTMax.gft_max_hp_experts (m : Mechanism) (c : ℕ) (fb : ℚ × ℚ) :
    (GFTMax.gft_max m c fb).hedge_profit.experts = m.hedge_profit.experts := rfl

lemma GFTMax.gft_max_hg_experts (m : Mechanism) (c : ℕ) (fb : ℚ × ℚ) :
    (GFTMax.gft_max m c fb).hedge_gft.experts = m.hedge_gft.experts := rfl

lemma GFTMax.step_of_flag_true (m : Mechanism) (c : ℕ) (fb : ℚ × ℚ)
    (hm : m.run_profit_max = true) :
    GFTMax.step m c fb = GFTMax.profit_max m c fb := by
  unfold GFTMax.step
  rw [hm]
  simp

lemma GFTMax.step_of_flag_false (m : Mechanism) (c : ℕ) (fb : ℚ × ℚ)
    (hm : m.run_profit_max = false) :
    GFTMax.step m c fb = GFTMax.gft_max m c fb := by
  unfold GFTMax.step
  rw [hm]
  simp

lemma update_budget_mono (a fb : ℚ × ℚ) (budget : ℚ) (ha : a.1 ≤ a.2) :
    budget ≤ update_budget a fb budget := by
  unfold update_budget
  split <;> linarith

lemma update_gft_mono_of_action (a fb : ℚ × ℚ) (g : ℚ) (ha : a.1 ≤ a.2) :
    g ≤ update_gft a fb g := by
  unfold update_gft
  split
  · rename_i hcl
    linarith [hcl.1, hcl.2]
  · linarith

lemma update_gft_mono_of_fb (a fb : ℚ × ℚ) (g : ℚ) (hfb : fb.1 ≤ fb.2) :
    g ≤ update_gft a fb g := by
  unfold update_gft
  split <;> linarith

lemma mult_grid_fst_le_snd (K : ℕ) (p : ℚ × ℚ)
    (hp : p ∈ create_multiplicative_grid K) : p.1 ≤ p.2 := by
  rw [show create_multiplicative_grid K = multGridAux (numExponents K) K from rfl,
    mem_multGridAux] at hp
  rcases hp with ⟨k, _, hp⟩ | ⟨k, _, i, _, ⟨_, hp⟩ | ⟨_, hp⟩⟩ <;> subst hp
  · exact le_refl _
  · simp only
    have : (0 : ℚ) ≤ (1 / 2 : ℚ) ^ i := by positivity
    linarith
  · simp only
    have : (0 : ℚ) ≤ (1 / 2 : ℚ) ^ i := by positivity
    linarith

lemma getD_fst_le_snd (l : List (ℚ × ℚ)) (hl : ∀ p ∈ l, p.1 ≤ p.2) (c : ℕ) :
    (l.getD c (0, 0)).1 ≤ (l.getD c (0, 0)).2 := by
  by_cases hc : c < l.length
  · rw [List.getD_eq_getElem _ _ hc]
    exact hl _ (l.getElem_mem hc)
  · rw [List.getD_eq_default _ _ (le_of_not_lt hc)]

lemma GFTMax.step_hp_experts (m : Mechanism) (c : ℕ) (fb : ℚ × ℚ) :
    (GFTMax.step m c fb).hedge_profit.experts = m.hedge_profit.experts := by
  unfold GFTMax.step
  split <;> rfl

lemma GFTMax.step_hg_experts (m : Mechanism) (c : ℕ) (fb : ℚ × ℚ) :
    (GFTMax.step m c fb).hedge_gft.experts = m.hedge_gft.experts := by
  unfold GFTMax.step
  split <;> rfl

lemma GFTMax.runFrom_init_experts (T : ℕ) (c : ℕ → ℕ) (env : ℕ → ℚ × ℚ) (n : ℕ) :
    (GFTMax.runFrom (GFTMax.init T) c env n).hedge_profit.experts =
        create_multiplicative_grid (Nat.sqrt T) ∧
      (GFTMax.runFrom (GFTMax.init T) c env n).hedge_gft.experts =
        create_additive_grid (Nat.sqrt T) := by
  induction n with
  | zero => exact ⟨rfl, rfl⟩
  | succ k ih =>
    rw [GFTMax.runFrom, GFTMax.step_hp_experts, GFTMax.step_hg_experts]
    exact ih

/-- C1 amended: along every execution of `TradeMechanism.run`, in every
round taken in the profit-maximizing phase both `budget` and `gft` are
non-decreasing (for arbitrary feedback), and in every round — including
GFT-phase rounds using the additive grid — `gft` is non-decreasing
whenever the round's feedback satisfies `hidden_s ≤ hidden_b`.  The
original claim fails: in a GFT-phase round the additive-grid action has
`bid = ask − 1/K`, so a cleared trade strictly decreases `budget`. -/
theorem C1_monotone_amended (T : ℕ) (c : ℕ → ℕ) (env : ℕ → ℚ × ℚ) (n : ℕ) :
    ((GFTMax.runFrom (GFTMax.init T) c env n).run_profit_max = true →
      (GFTMax.runFrom (GFTMax.init T) c env n).budget ≤
          (GFTMax.runFrom (GFTMax.init T) c env (n + 1)).budget ∧
        (GFTMax.runFrom (GFTMax.init T) c env n).gft ≤
          (GFTMax.runFrom (GFTMax.init T) c env (n + 1)).gft) ∧
    ((env n).1 ≤ (env n).2 →
      (GFTMax.runFrom (GFTMax.init T) c env n).gft ≤
        (GFTMax.runFrom (GFTMax.init T) c env (n + 1)).gft) := by
  have hexp := GFTMax.runFrom_init_experts T c env n
  constructor
  · intro hflag
    rw [GFTMax.runFrom, GFTMax.step_of_flag_true _ _ _ hflag,
      GFTMax.profit_max_budget, GFTMax.profit_max_gft]
    have hact : ((GFTMax.runFrom (GFTMax.init T) c env n).hedge_profit.experts.getD
          (c n) (0, 0)).1 ≤
        ((GFTMax.runFrom (GFTMax.init T) c env n).hedge_profit.experts.getD
          (c n) (0, 0)).2 := by
      apply getD_fst_le_snd
      rw [hexp.1]
      exact fun p hp => mult_grid_fst_le_snd (Nat.sqrt T) p hp
    exact ⟨update_budget_mono _ _ _ hact, update_gft_mono_of_action _ _ _ hact⟩
  · intro hfb
    rw [GFTMax.runFrom]
    cases hflag : (GFTMax.runFrom (GFTMax.init T) c env n).run_profit_max
    · rw [GFTMax.step_of_flag_false _ _ _ hflag, GFTMax.gft_max_gft]
      exact update_gft_mono_of_fb _ _ _ hfb
    · rw [GFTMax.step_of_flag_true _ _ _ hflag, GFTMax.profit_max_gft]
      exact update_gft_mono_of_fb _ _ _ hfb

theorem C1_monotone_amended_witness :
    (GFTMax.runFrom (GFTMax.init 1) cZero envSeq 0).budget ≤
        (GFTMax.runFrom (GFTMax.init 1) cZero envSeq 1).budget ∧
      (GFTMax.runFrom (GFTMax.init 1) cZero envSeq 0).gft ≤
        (GFTMax.runFrom (GFTMax.init 1) cZero envSeq 1).gft :=
  (C1_monotone_amended 1 cZero envSeq 0).1 rfl

/-- C1 fails as stated: concrete `TradeMechanism` run with `T = 3` and
constant feedback `(0, 1)`.  The first two (profit-phase) rounds clear
the multiplicative-grid action `(0, 1)`, raising `budget` to `2 ≥ √3`
and switching the phase; round 3 is a GFT-phase round whose additive-grid
action `(1, 0)` clears, and `budget` drops from `2` to `1`. -/
theorem C1_counterexample :
    (GFTMax.runFrom (GFTMax.init 3) cSeq envSeq 3).budget <
      (GFTMax.runFrom (GFTMax.init 3) cSeq envSeq 2).budget := by
  have hsq : Nat.sqrt 3 = 1 := by norm_num
  have hgrid : create_multiplicative_grid 1 = [(0, 0), (0, 1), (1, 1), (0, 1)] := by
    show multGridAux (numExponents 1) 1 = _
    rw [numExponents_one]
    norm_num [multGridAux, List.range_succ, List.range_zero,
      List.flatMap_cons, List.flatMap_nil]
  have hagrid : create_additive_grid 1 = [(1, 0)] := by
    norm_num [create_additive_grid, List.range_succ, List.range_zero]
  have h0pe : (GFTMax.init 3).hedge_profit.experts = [(0, 0), (0, 1), (1, 1), (0, 1)] := by
    show create_multiplicative_grid (Nat.sqrt 3) = _
    rw [hsq, hgrid]
  have h0ge : (GFTMax.init 3).hedge_gft.experts = [(1, 0)] := by
    show create_additive_grid (Nat.sqrt 3) = _
    rw [hsq, hagrid]
  have h0th : (GFTMax.init 3).budget_threshold = Real.sqrt 3 := by
    show Real.sqrt ((3 : ℕ) : ℝ) = _
    norm_num
  have hsqrt3 : Real.sqrt 3 ^ 2 = 3 := Real.sq_sqrt (by norm_num)
  have hsqrt3nn : (0 : ℝ) ≤ Real.sqrt 3 := Real.sqrt_nonneg 3
  have hs1 : ¬ (Real.sqrt 3 ≤ ((1 : ℚ) : ℝ)) := by
    rw [show ((1 : ℚ) : ℝ) = 1 by norm_num, not_le]
    nlinarith
  have hs2 : Real.sqrt 3 ≤ ((2 : ℚ) : ℝ) := by
    rw [show ((2 : ℚ) : ℝ) = 2 by norm_num]
    nlinarith
  -- round 1
  have e1 : GFTMax.runFrom (GFTMax.init 3) cSeq envSeq 1 =
      GFTMax.profit_max (GFTMax.init 3) 1 (0, 1) := by
    show GFTMax.step (GFTMax.init 3) (cSeq 0) (envSeq 0) = _
    rw [GFTMax.step_of_flag_true _ _ _ rfl]
    norm_num [cSeq, envSeq]
  have h1b : (GFTMax.runFrom (GFTMax.init 3) cSeq envSeq 1).budget = 1 := by
    rw [e1, GFTMax.profit_max_budget, h0pe]
    show update_budget (0, 1) (0, 1) (GFTMax.init 3).budget = 1
    norm_num [update_budget]
    rfl
  have h1f : (GFTMax.runFrom (GFTMax.init 3) cSeq envSeq 1).run_profit_max = true := by
    rw [e1, GFTMax.profit_max_flag, h0pe, h0th]
    have hub : update_budget ([(0, 0), (0, 1), (1, 1), (0, 1)].getD 1 ((0 : ℚ), (0 : ℚ)))
        (0, 1) (GFTMax.init 3).budget = 1 := by
      show update_budget (0, 1) (0, 1) (GFTMax.init 3).budget = 1
      norm_num [update_budget]
      rfl
    rw [hub, if_neg hs1]
    rfl
  have h1pe : (GFTMax.runFrom (GFTMax.init 3) cSeq envSeq 1).hedge_profit.experts =
      [(0, 0), (0, 1), (1, 1), (0, 1)] := by
    rw [e1, GFTMax.profit_max_hp_experts, h0pe]
  have h1ge : (GFTMax.runFrom (GFTMax.init 3) cSeq envSeq 1).hedge_gft.experts =
      [(1, 0)] := by
    rw [e1, GFTMax.profit_max_hg_experts, h0ge]
  have h1th : (GFTMax.runFrom (GFTMax.init 3) cSeq envSeq 1).budget_threshold =
      Real.sqrt 3 := by
    rw [e1, GFTMax.profit_max_threshold, h0th]
  -- round 2
  have e2 : GFTMax.runFrom (GFTMax.init 3) cSeq envSeq 2 =
      GFTMax.profit_max (GFTMax.runFrom (GFTMax.init 3) cSeq envSeq 1) 1 (0, 1) := by
    show GFTMax.step (GFTMax.runFrom (GFTMax.init 3) cSeq envSeq 1) (cSeq 1) (envSeq 1) = _
    rw [GFTMax.step_of_flag_true _ _ _ h1f]
    norm_num [cSeq, envSeq]
  have h2b : (GFTMax.runFrom (GFTMax.init 3) cSeq envSeq 2).budget = 2 := by
    rw [e2, GFTMax.profit_max_budget, h1pe, h1b]
    norm_num [update_budget]
  have h2f : (GFTMax.runFrom (GFTMax.init 3) cSeq envSeq 2).run_profit_max = false := by
    rw [e2, GFTMax.profit_max_flag, h1pe, h1b, h1th]
    have hub : update_budget ([(0, 0), (0, 1), (1, 1), (0, 1)].getD 1 ((0 : ℚ), (0 : ℚ)))
        (0, 1) (1 : ℚ) = 2 := by
      norm_num [update_budget]
    rw [hub, if_pos hs2]
  have h2ge : (GFTMax.runFrom (GFTMax.init 3) cSeq envSeq 2).hedge_gft.experts =
      [(1, 0)] := by
    rw [e2, GFTMax.profit_max_hg_experts, h1ge]
  -- round 3
  have e3 : GFTMax.runFrom (GFTMax.init 3) cSeq envSeq 3 =
      GFTMax.gft_max (GFTMax.runFrom (GFTMax.init 3) cSeq envSeq 2) 0 (0, 1) := by
    show GFTMax.step (GFTMax.runFrom (GFTMax.init 3) cSeq envSeq 2) (cSeq 2) (envSeq 2) = _
    rw [GFTMax.step_of_flag_false _ _ _ h2f]
    norm_num [cSeq, envSeq]
  have h3b : (GFTMax.runFrom (GFTMax.init 3) cSeq envSeq 3).budget = 1 := by
    rw [e3, GFTMax.gft_max_budget, h2ge, h2b]
    norm_num [update_budget]
  rw [h3b, h2b]
  norm_num
